import Mathlib

/-
Shallow embedding of src/rs/world.rs (yourcraft world/chunk core).

Modelling conventions:
* u32 values are modelled as Nat.  None of the verified properties depend on
  32-bit wrap-around; every world considered has small dimensions or the
  statement carries the hypotheses under which no arithmetic overflows.
* Rust `u32` division/modulo by zero panics; the model uses Lean's total
  division, and every statement about a constructed world has
  `0 < chunk_size` available (Rust's `generate_empty` would panic before
  ever building a world with `chunk_size = 0`).
* Fallible operations return `Res`, with `Res.err` for a returned
  `Err(WorldError)` and `Res.panic` for a Rust panic (vector indexing out of
  range, `Option::unwrap` on `None`).
* `&mut self` methods are modelled by state passing: they return the
  post-state `World` together with the `Res` result.  On an error path the
  returned world is the unchanged input, exactly as in the source where the
  early `return` happens before any mutation.
* `get_chunk_mut` (a mutable borrow of one chunk slot) is modelled inside
  `set_block` by the same bounds check and row index followed by a
  `List.set` write-back at that index.
-/

/-- Error enumeration of `WorldError` in src/rs/world.rs. -/
inductive WorldError where
  | MismatchedChunkSize : WorldError
  | OutOfBounds : Nat → Nat → WorldError
  | PlaceOutOfLoadedChunk : WorldError
  | ChunkAlreadyLoaded : WorldError
  | ChunkAlreadyUnloaded : WorldError
deriving DecidableEq, Repr

/-- Result of a fallible operation: `ok`, a returned `Err`, or a Rust panic
(out-of-range index / `unwrap` of `None`). -/
inductive Res (α : Type) where
  | ok : α → Res α
  | err : WorldError → Res α
  | panic : Res α
deriving DecidableEq, Repr

/-- The `Block` enum produced by the `define_blocks!` macro invocation. -/
inductive Block where
  | Air | Grass | Stone | Log | Leaves | Water | Wood
deriving DecidableEq, Repr

/-- `impl Into<u8> for Block`: `self as u8`, i.e. the declared discriminant. -/
def Block.toCode : Block → Nat
  | .Air => 0
  | .Grass => 1
  | .Stone => 2
  | .Log => 3
  | .Leaves => 4
  | .Water => 5
  | .Wood => 6

/-- `impl Into<Block> for u8`: match on the declared codes, any other code
falls back to `Block::Air`. -/
def Block.ofCode : Nat → Block
  | 0 => .Air
  | 1 => .Grass
  | 2 => .Stone
  | 3 => .Log
  | 4 => .Leaves
  | 5 => .Water
  | 6 => .Wood
  | _ => .Air

/-- Modelled from the spec: `ClientConnection` lives in the network module,
which is not part of the world core; the core only reads its stable unique
identifier `id` and compares it for equality. -/
structure ClientConnection where
  id : Nat
deriving DecidableEq, Repr

/-- The `Chunk` struct. -/
structure Chunk where
  size : Nat
  chunk_x : Nat
  chunk_y : Nat
  blocks : List Block
deriving DecidableEq, Repr

/-- The `World` struct.  `player_loaded` is the per-chunk subscriber table,
parallel to `chunks`. -/
structure World where
  width : Nat
  height : Nat
  chunk_size : Nat
  chunks : List Chunk
  width_chunks : Nat
  height_chunks : Nat
  players : List ClientConnection
  player_loaded : List (List Nat)
deriving DecidableEq, Repr

/-- `Chunk::empty`: an all-Air chunk of `size.pow(2)` blocks. -/
def Chunk.empty (size chunk_x chunk_y : Nat) : Chunk :=
  { size, chunk_x, chunk_y,
    blocks := (List.range (size ^ 2)).map (fun _ => Block.Air) }

/-- `Chunk::set_block`: writes slot `chunk_pos_y * size + chunk_pos_x`;
Rust's `self.blocks[idx] = block` panics when the index is out of range. -/
def Chunk.set_block (c : Chunk) (chunk_pos_x chunk_pos_y : Nat) (block : Block) : Res Chunk :=
  let idx := chunk_pos_y * c.size + chunk_pos_x
  if idx < c.blocks.length then
    .ok { c with blocks := c.blocks.set idx block }
  else
    .panic

/-- `World::check_out_of_bounds_chunk`: rejects when
`chunk_x > width / chunk_size || chunk_y > height / chunk_size`. -/
def World.check_out_of_bounds_chunk (w : World) (chunk_x chunk_y : Nat) : Except WorldError Unit :=
  if w.width / w.chunk_size < chunk_x ∨ w.height / w.chunk_size < chunk_y then
    .error (.OutOfBounds chunk_x chunk_y)
  else
    .ok ()

/-- `World::check_out_of_bounds_block`: rejects when
`x >= width && y >= height` (note the conjunction in the source). -/
def World.check_out_of_bounds_block (w : World) (x y : Nat) : Except WorldError Unit :=
  if w.width ≤ x ∧ w.height ≤ y then
    .error (.OutOfBounds x y)
  else
    .ok ()

/-- `World::get_chunk`: bounds check, then read
`chunks[chunk_y * height_chunks + chunk_x]` (the source indexes with
`height_chunks`); an out-of-range index panics. -/
def World.get_chunk (w : World) (chunk_x chunk_y : Nat) : Res Chunk :=
  match w.check_out_of_bounds_chunk chunk_x chunk_y with
  | .error e => .err e
  | .ok () =>
    match w.chunks[(chunk_y * w.height_chunks + chunk_x)]? with
    | some c => .ok c
    | none => .panic

/-- `World::get_chunk_block_is_in`: bounds check, then integer division by
`chunk_size` on both axes. -/
def World.get_chunk_block_is_in (w : World) (pos_x pos_y : Nat) : Except WorldError (Nat × Nat) :=
  match w.check_out_of_bounds_block pos_x pos_y with
  | .error e => .error e
  | .ok () => .ok (pos_x / w.chunk_size, pos_y / w.chunk_size)

/-- `World::set_block`: cell bounds check, chunk resolution, translation to
chunk-local coordinates, then a write through the mutably borrowed chunk
(`get_chunk_mut`: its bounds check, the `chunk_y * height_chunks + chunk_x`
index, and the write-back at that index). -/
def World.set_block (w : World) (pos_x pos_y : Nat) (block : Block) : World × Res Unit :=
  match w.check_out_of_bounds_block pos_x pos_y with
  | .error e => (w, .err e)
  | .ok () =>
    match w.get_chunk_block_is_in pos_x pos_y with
    | .error e => (w, .err e)
    | .ok (chunk_x, chunk_y) =>
      let pos_inside_chunk_x := pos_x - chunk_x * w.chunk_size
      let pos_inside_chunk_y := pos_y - chunk_y * w.chunk_size
      match w.check_out_of_bounds_chunk chunk_x chunk_y with
      | .error e => (w, .err e)
      | .ok () =>
        let i := chunk_y * w.height_chunks + chunk_x
        match w.chunks[i]? with
        | none => (w, .panic)
        | some c =>
          match c.set_block pos_inside_chunk_x pos_inside_chunk_y block with
          | .ok c' => ({ w with chunks := w.chunks.set i c' }, .ok ())
          | .err e => (w, .err e)
          | .panic => (w, .panic)

/-- `World::mark_chunk_loaded_by_id`: bounds check, read the subscriber set
at `chunk_y * height_chunks + chunk_x` (panic when out of range), reject a
duplicate with `ChunkAlreadyLoaded`, push only when the id matches a
connected player, then return the chunk through `get_chunk`. -/
def World.mark_chunk_loaded_by_id (w : World) (chunk_x chunk_y player_loading_id : Nat) :
    World × Res Chunk :=
  match w.check_out_of_bounds_chunk chunk_x chunk_y with
  | .error e => (w, .err e)
  | .ok () =>
    let i := chunk_y * w.height_chunks + chunk_x
    match w.player_loaded[i]? with
    | none => (w, .panic)
    | some players_loading_chunk =>
      if players_loading_chunk.any (fun loading => loading == player_loading_id) then
        (w, .err .ChunkAlreadyLoaded)
      else
        let pushed :=
          if (w.players.find? (fun player => player.id == player_loading_id)).isSome then
            players_loading_chunk ++ [player_loading_id]
          else
            players_loading_chunk
        let w' := { w with player_loaded := w.player_loaded.set i pushed }
        match w'.get_chunk chunk_x chunk_y with
        | .ok c => (w', .ok c)
        | .err e => (w', .err e)
        | .panic => (w', .panic)

/-- `World::unmark_loaded_chunk_for`: bounds check, then
`retain(|&con| player_loading_id != con)` on the subscriber set at
`chunk_y * height_chunks + chunk_x`. -/
def World.unmark_loaded_chunk_for (w : World) (chunk_x chunk_y player_loading_id : Nat) :
    World × Res Unit :=
  match w.check_out_of_bounds_chunk chunk_x chunk_y with
  | .error e => (w, .err e)
  | .ok () =>
    let i := chunk_y * w.height_chunks + chunk_x
    match w.player_loaded[i]? with
    | none => (w, .panic)
    | some players_loading_chunk =>
      let retained := players_loading_chunk.filter (fun con => player_loading_id != con)
      ({ w with player_loaded := w.player_loaded.set i retained }, .ok ())

/-- `World::unload_all_for`: retain on every chunk's subscriber set (the
parallel iteration is order-independent, modelled as a map). -/
def World.unload_all_for (w : World) (player_loading_id : Nat) : World :=
  { w with player_loaded :=
      w.player_loaded.map (fun l => l.filter (fun con => player_loading_id != con)) }

/-- Resolution loop of `get_list_of_players_loading_chunk`: each subscriber
id is looked up in `players` and `.unwrap()`-ed (panic when absent). -/
def resolveIds (players : List ClientConnection) : List Nat → Res (List ClientConnection)
  | [] => .ok []
  | pid :: rest =>
    match players.find? (fun conn => conn.id == pid) with
    | none => .panic
    | some c =>
      match resolveIds players rest with
      | .ok l => .ok (c :: l)
      | .err e => .err e
      | .panic => .panic

/-- `World::get_list_of_players_loading_chunk`: `get_chunk` for the bounds
check, then resolve the subscriber-id set at
`chunk_y * height_chunks + chunk_x`. -/
def World.get_list_of_players_loading_chunk (w : World) (chunk_x chunk_y : Nat) :
    Res (List ClientConnection) :=
  match w.get_chunk chunk_x chunk_y with
  | .err e => .err e
  | .panic => .panic
  | .ok _ =>
    match w.player_loaded[(chunk_y * w.height_chunks + chunk_x)]? with
    | none => .panic
    | some ids => resolveIds w.players ids

/-- `World::generate_empty`: divisibility validation, then one
`Chunk::empty` and one empty subscriber set per chunk-grid cell, collected
in row-major order (`chunk_x = idx % width_chunks`,
`chunk_y = idx / width_chunks`). -/
def World.generate_empty (width height chunk_size : Nat) : Except WorldError World :=
  if width % chunk_size ≠ 0 ∨ height % chunk_size ≠ 0 then
    .error .MismatchedChunkSize
  else
    let width_chunks := width / chunk_size
    let height_chunks := height / chunk_size
    .ok { width, height, chunk_size,
          chunks := (List.range (width_chunks * height_chunks)).map
            (fun idx => Chunk.empty chunk_size (idx % width_chunks) (idx / width_chunks)),
          width_chunks, height_chunks,
          players := [],
          player_loaded := (List.range (width_chunks * height_chunks)).map
            (fun _ => ([] : List Nat)) }

/-- Runs a sequence of `set_block` calls, propagating the first failure, as
the `?`-operator does inside the generation loops. -/
def runSets (w : World) : List (Nat × Nat × Block) → World × Res Unit
  | [] => (w, .ok ())
  | (x, y, b) :: rest =>
    match w.set_block x y b with
    | (w', .ok ()) => runSets w' rest
    | (w', .err e) => (w', .err e)
    | (w', .panic) => (w', .panic)

/-- `World::generate_flat`: `generate_empty`, then (unless
`grass_level == 0`) one `set_block(idx % width, idx / width, Stone)` per
`idx` in `0..width * (grass_level - 1)`, then one
`set_block(x, grass_level, Grass)` per `x` in `0..width`. -/
def World.generate_flat (width height chunk_size grass_level : Nat) : Res World :=
  match World.generate_empty width height chunk_size with
  | .error e => .err e
  | .ok empty_world =>
    let stonePass :=
      if grass_level ≠ 0 then
        runSets empty_world ((List.range (width * (grass_level - 1))).map
          (fun idx => (idx % width, idx / width, Block.Stone)))
      else
        (empty_world, .ok ())
    match stonePass with
    | (_, .err e) => .err e
    | (_, .panic) => .panic
    | (w1, .ok ()) =>
      match runSets w1 ((List.range width).map (fun x => (x, grass_level, Block.Grass))) with
      | (_, .err e) => .err e
      | (_, .panic) => .panic
      | (w2, .ok ()) => .ok w2

/-- Observation: the block stored for world cell `(x, y)`, reading the chunk
grid in the row-major layout that `generate_empty` produces
(`chunk_y * width_chunks + chunk_x`) and the block grid row-major within the
chunk. `none` when a lookup falls outside the stored data. -/
def blockAt (w : World) (x y : Nat) : Option Block :=
  match w.chunks[((y / w.chunk_size) * w.width_chunks + x / w.chunk_size)]? with
  | none => none
  | some c => c.blocks[((y % w.chunk_size) * w.chunk_size + x % w.chunk_size)]?

/-- Observation: the structural data of a chunk apart from its block
contents. -/
def chunkShape (c : Chunk) : Nat × Nat × Nat := (c.size, c.chunk_x, c.chunk_y)

/-- Terrain column produced by `generate_flat` for a cell at height `y`
(independent of `x`): Grass on the `grass_level` row, Stone strictly below
`grass_level - 1`, Air elsewhere. -/
def flatSpec (grass_level y : Nat) : Block :=
  if y = grass_level then .Grass
  else if y + 1 < grass_level then .Stone
  else .Air

/-- Point update of a cell-observation function. -/
def updateAt (f : Nat → Nat → Option Block) (a b : Nat) (v : Block) :
    Nat → Nat → Option Block :=
  fun x y => if x = a ∧ y = b then some v else f x y

/-- Effect of a sequence of single-cell writes on a cell-observation
function, first write applied first. -/
def applyW (f : Nat → Nat → Option Block) : List (Nat × Nat × Block) → (Nat → Nat → Option Block)
  | [] => f
  | (a, b, v) :: rest => applyW (updateAt f a b v) rest

/-- Structural well-formedness of a world, as established by
`generate_empty`: positive chunk size, cached chunk-grid dimensions, the
divisibility invariant, and correctly sized chunk storage. -/
structure WF (w : World) : Prop where
  hcs : 0 < w.chunk_size
  hwc : w.width_chunks = w.width / w.chunk_size
  hhc : w.height_chunks = w.height / w.chunk_size
  hdw : w.width % w.chunk_size = 0
  hdh : w.height % w.chunk_size = 0
  hlen : w.chunks.length = w.width_chunks * w.height_chunks
  hsize : ∀ (i : Nat) (c : Chunk), w.chunks[i]? = some c → c.size = w.chunk_size
  hblen : ∀ (i : Nat) (c : Chunk), w.chunks[i]? = some c → c.blocks.length = w.chunk_size ^ 2

/-- The world `generate_empty(4, 4, 2)` builds: a 2 × 2 chunk grid. -/
def w44 : World :=
  { width := 4, height := 4, chunk_size := 2,
    chunks := [Chunk.empty 2 0 0, Chunk.empty 2 1 0, Chunk.empty 2 0 1, Chunk.empty 2 1 1],
    width_chunks := 2, height_chunks := 2,
    players := [], player_loaded := [[], [], [], []] }

/-- The world `generate_empty(2, 4, 2)` builds: a 1 × 2 chunk grid (one
chunk column, two chunk rows). -/
def w24 : World :=
  { width := 2, height := 4, chunk_size := 2,
    chunks := [Chunk.empty 2 0 0, Chunk.empty 2 0 1],
    width_chunks := 1, height_chunks := 2,
    players := [], player_loaded := [[], []] }

/-- `w24` with player 7 subscribed to chunk `(0, 1)` (row-major subscriber
slot `1 * width_chunks + 0 = 1`). -/
def w24s : World := { w24 with player_loaded := [[], [7]] }

/-- A 1-chunk world with two connected players, 5 and 7, both subscribed to
chunk `(0, 0)`. -/
def wC7 : World :=
  { width := 2, height := 2, chunk_size := 2,
    chunks := [Chunk.empty 2 0 0],
    width_chunks := 1, height_chunks := 1,
    players := [⟨5⟩, ⟨7⟩], player_loaded := [[5, 7]] }

/-- The world `generate_flat(4, 4, 2, 2)` builds: Stone on row 0 only,
Grass on row 2, Air on rows 1 and 3. -/
def c4flat : World :=
  { w44 with chunks :=
      [{ size := 2, chunk_x := 0, chunk_y := 0, blocks := [.Stone, .Stone, .Air, .Air] },
       { size := 2, chunk_x := 1, chunk_y := 0, blocks := [.Stone, .Stone, .Air, .Air] },
       { size := 2, chunk_x := 0, chunk_y := 1, blocks := [.Grass, .Grass, .Air, .Air] },
       { size := 2, chunk_x := 1, chunk_y := 1, blocks := [.Grass, .Grass, .Air, .Air] }] }

/-- C1: refuted by the code. The cell bounds check requires BOTH axes out of
range (`x >= width && y >= height`), so on the 4×4 world the single-axis
out-of-range cell `(5, 0)` is accepted: `get_chunk_block_is_in` returns
`(2, 0)` instead of `OutOfBounds`, and `set_block(5, 0, Stone)` succeeds,
silently writing into the chunk stored at index 2 — the chunk whose own
coordinates are `(0, 1)`. -/
theorem C1_single_axis_oob_accepted :
    World.generate_empty 4 4 2 = .ok w44 ∧
    w44.get_chunk_block_is_in 5 0 = .ok (2, 0) ∧
    (w44.set_block 5 0 .Stone).2 = .ok () ∧
    (w44.set_block 5 0 .Stone).1.chunks[2]? =
      some { size := 2, chunk_x := 0, chunk_y := 1,
             blocks := [.Air, .Stone, .Air, .Air] } :=
  ⟨rfl, rfl, rfl, rfl⟩

/-- C2: refuted by the code. The chunk bounds check uses a strict `>`
comparator against `width / chunk_size`, so on the 4×4 world
(`width_chunks = 2`) the invalid chunk coordinate `(2, 0)` — for which the
claim demands `OutOfBounds(2, 0)` — passes the check, and `get_chunk`
returns the chunk stored at index `0 * height_chunks + 2 = 2`, whose own
coordinates are `(0, 1)`. -/
theorem C2_chunk_bound_off_by_one :
    World.generate_empty 4 4 2 = .ok w44 ∧
    w44.width_chunks = 2 ∧
    w44.check_out_of_bounds_chunk 2 0 = .ok () ∧
    w44.get_chunk 2 0 = .ok (Chunk.empty 2 0 1) :=
  ⟨rfl, rfl, rfl, rfl⟩

/-- C3: refuted by the code. `generate_empty(2, 4, 2)` stores the chunk with
coordinates `(0, 1)` at the row-major index `1 * width_chunks + 0 = 1`, but
`get_chunk(0, 1)` computes index `1 * height_chunks + 0 = 2` and panics on
the two-element chunk list instead of returning that chunk. -/
theorem C3_row_major_access_mismatch :
    World.generate_empty 2 4 2 = .ok w24 ∧
    w24.chunks.length = w24.width_chunks * w24.height_chunks ∧
    w24.chunks[1]? = some (Chunk.empty 2 0 1) ∧
    w24.get_chunk 0 1 = .panic :=
  ⟨rfl, rfl, rfl, rfl⟩

/-- C5: refuted by the code. In `w24s` player 7 is present in chunk
`(0, 1)`'s subscriber set (row-major slot `1 * width_chunks + 0 = 1`), and
`(0, 1)` is a valid chunk coordinate, yet `mark_chunk_loaded_by_id(0, 1, 7)`
panics — it reads subscriber slot `1 * height_chunks + 0 = 2`, out of range —
instead of failing with `ChunkAlreadyLoaded`. -/
theorem C5_duplicate_subscription_panics :
    w24s.player_loaded[1 * w24s.width_chunks + 0]? = some [7] ∧
    (w24s.mark_chunk_loaded_by_id 0 1 7).2 = .panic ∧
    (w24s.mark_chunk_loaded_by_id 0 1 7).1 = w24s :=
  ⟨rfl, rfl, rfl⟩

/-- C6: refuted by the code. In `w24` no player is connected and every
subscriber set is empty, and `(0, 1)` is a valid chunk coordinate
(`width_chunks = 1`, `height_chunks = 2`), yet
`mark_chunk_loaded_by_id(0, 1, 7)` panics — subscriber slot
`1 * height_chunks + 0 = 2` is out of range — instead of succeeding with the
chunk and unchanged subscriber sets. -/
theorem C6_ghost_subscription_panics :
    w24.players = [] ∧
    w24.player_loaded = [[], []] ∧
    w24.width_chunks = 1 ∧ w24.height_chunks = 2 ∧
    (w24.mark_chunk_loaded_by_id 0 1 7).2 = .panic :=
  ⟨rfl, rfl, rfl, rfl, rfl⟩

/-- C9: encoding any Block variant and decoding the code yields the variant
back; decoding any code in {0..6} and re-encoding yields the original code;
decoding any code outside {0..6} yields Air. -/
theorem C9_block_code_round_trip :
    (∀ v : Block, Block.ofCode (Block.toCode v) = v) ∧
    (∀ c : Nat, c ≤ 6 → Block.toCode (Block.ofCode c) = c) ∧
    (∀ c : Nat, 6 < c → Block.ofCode c = .Air) := by
  refine ⟨fun v => by cases v <;> rfl, fun c hc => ?_, fun c hc => ?_⟩
  · interval_cases c <;> rfl
  · obtain ⟨d, rfl⟩ : ∃ d, c = d + 7 := ⟨c - 7, by omega⟩
    rfl

/-- Witness for C9 at the concrete codes 3 and 9. -/
theorem C9_block_code_round_trip_witness :
    Block.toCode (Block.ofCode 3) = 3 ∧ Block.ofCode 9 = .Air :=
  ⟨C9_block_code_round_trip.2.1 3 (by decide),
   C9_block_code_round_trip.2.2 9 (by decide)⟩

/-- C4, counterexample to the claim as stated: in
`generate_flat(4, 4, 2, 2)` the cell `(0, 1)` satisfies `y < grass_level`
(`1 < 2`), so the claim demands Stone there, but the generated world holds
Air at that cell (the stone pass only fills `y < grass_level - 1`). -/
theorem C4_stone_fill_counterexample :
    World.generate_flat 4 4 2 2 = .ok c4flat ∧
    blockAt c4flat 0 1 = some Block.Air ∧
    some Block.Air ≠ some Block.Stone :=
  ⟨rfl, rfl, by decide⟩


lemma resolveIds_mem (ps : List ClientConnection) :
    ∀ (ids : List Nat) (l : List ClientConnection),
      resolveIds ps ids = .ok l → ∀ c ∈ l, c.id ∈ ids := by
  intro ids
  induction ids with
  | nil =>
    intro l h c hc
    unfold resolveIds at h
    injection h with h2
    subst h2
    simp at hc
  | cons a rest ih =>
    intro l h c hc
    unfold resolveIds at h
    cases hf : ps.find? (fun conn => conn.id == a) with
    | none => rw [hf] at h; simp at h
    | some c0 =>
      rw [hf] at h
      cases hr : resolveIds ps rest with
      | ok l0 =>
        rw [hr] at h
        injection h with h2
        subst h2
        rcases List.mem_cons.mp hc with rfl | hmem
        · have hp := List.find?_some hf
          simp only [beq_iff_eq] at hp
          simp [hp]
        · have := ih l0 hr c hmem
          simp [this]
      | err e => rw [hr] at h; simp at h
      | panic => rw [hr] at h; simp at h

lemma mark_fst (w : World) (cx cy pid : Nat) :
    ∃ pl, (w.mark_chunk_loaded_by_id cx cy pid).1 = { w with player_loaded := pl } := by
  simp only [World.mark_chunk_loaded_by_id]
  repeat' split
  all_goals exact ⟨_, rfl⟩

lemma unmark_fst (w : World) (cx cy pid : Nat) :
    ∃ pl, (w.unmark_loaded_chunk_for cx cy pid).1 = { w with player_loaded := pl } := by
  simp only [World.unmark_loaded_chunk_for]
  repeat' split
  all_goals exact ⟨_, rfl⟩

/-- C10: the subscription operations `mark_chunk_loaded_by_id`,
`unmark_loaded_chunk_for` and `unload_all_for` leave `width`, `height`,
`chunk_size`, the chunk list (hence every chunk's coordinates and block
contents) and the `players` list unchanged, whether they succeed or fail;
only the per-chunk subscriber table can change. -/
theorem C10_subscription_ops_frame (w : World) (cx cy pid : Nat) :
    ((w.mark_chunk_loaded_by_id cx cy pid).1.width = w.width ∧
     (w.mark_chunk_loaded_by_id cx cy pid).1.height = w.height ∧
     (w.mark_chunk_loaded_by_id cx cy pid).1.chunk_size = w.chunk_size ∧
     (w.mark_chunk_loaded_by_id cx cy pid).1.chunks = w.chunks ∧
     (w.mark_chunk_loaded_by_id cx cy pid).1.players = w.players) ∧
    ((w.unmark_loaded_chunk_for cx cy pid).1.width = w.width ∧
     (w.unmark_loaded_chunk_for cx cy pid).1.height = w.height ∧
     (w.unmark_loaded_chunk_for cx cy pid).1.chunk_size = w.chunk_size ∧
     (w.unmark_loaded_chunk_for cx cy pid).1.chunks = w.chunks ∧
     (w.unmark_loaded_chunk_for cx cy pid).1.players = w.players) ∧
    ((w.unload_all_for pid).width = w.width ∧
     (w.unload_all_for pid).height = w.height ∧
     (w.unload_all_for pid).chunk_size = w.chunk_size ∧
     (w.unload_all_for pid).chunks = w.chunks ∧
     (w.unload_all_for pid).players = w.players) := by
  obtain ⟨pl1, h1⟩ := mark_fst w cx cy pid
  obtain ⟨pl2, h2⟩ := unmark_fst w cx cy pid
  refine ⟨⟨?_, ?_, ?_, ?_, ?_⟩, ⟨?_, ?_, ?_, ?_, ?_⟩, rfl, rfl, rfl, rfl, rfl⟩ <;>
    simp [h1, h2]

/-- C7: after `unload_all_for(player_id)` the id is absent from every
chunk's subscriber set; any list `get_list_of_players_loading_chunk`
subsequently returns contains no client whose identifier equals the id; and
subscriber entries for all other ids are retained. -/
theorem C7_unload_all (w : World) (pid cx cy : Nat) :
    (∀ s ∈ (w.unload_all_for pid).player_loaded, pid ∉ s) ∧
    (∀ l, (w.unload_all_for pid).get_list_of_players_loading_chunk cx cy = .ok l →
      ∀ c ∈ l, c.id ≠ pid) ∧
    (∀ (i : Nat) (s s' : List Nat), w.player_loaded[i]? = some s →
      (w.unload_all_for pid).player_loaded[i]? = some s' →
      ∀ q, q ≠ pid → (q ∈ s ↔ q ∈ s')) := by
  have part1 : ∀ s ∈ (w.unload_all_for pid).player_loaded, pid ∉ s := by
    intro s hs hmem
    simp only [World.unload_all_for, List.mem_map] at hs
    obtain ⟨s0, _, rfl⟩ := hs
    rcases List.mem_filter.mp hmem with ⟨_, hpred⟩
    simp at hpred
  refine ⟨part1, ?_, ?_⟩
  · intro l h c hc
    unfold World.get_list_of_players_loading_chunk at h
    cases hg : (w.unload_all_for pid).get_chunk cx cy with
    | err e => rw [hg] at h; simp at h
    | panic => rw [hg] at h; simp at h
    | ok ch =>
      rw [hg] at h
      cases hpl : (w.unload_all_for pid).player_loaded[(cy * (w.unload_all_for pid).height_chunks + cx)]? with
      | none => rw [hpl] at h; simp at h
      | some ids =>
        rw [hpl] at h
        have hidm : c.id ∈ ids := resolveIds_mem _ ids l h c hc
        have hnot : pid ∉ ids := part1 ids (List.getElem?_mem hpl)
        intro hEq
        exact hnot (hEq ▸ hidm)
  · intro i s s' hs hs' q hq
    simp only [World.unload_all_for, List.getElem?_map, hs, Option.map_some] at hs'
    injection hs' with h2
    subst h2
    simp only [List.mem_filter, bne_iff_ne]
    constructor
    · intro hqs
      exact ⟨hqs, by omega⟩
    · intro ⟨hqs, _⟩
      exact hqs

/-- Witness for C7 on a concrete 1-chunk world with players 5 and 7. -/
theorem C7_unload_all_witness : (ClientConnection.mk 5).id ≠ 7 :=
  (C7_unload_all wC7 7 0 0).2.1 [⟨5⟩] rfl ⟨5⟩ (by simp)

/-- C8: for positive `chunk_size`, `generate_empty` fails with
`MismatchedChunkSize` exactly on the inputs where a dimension is not
divisible by `chunk_size`, and on divisible inputs it succeeds with one
all-Air chunk per chunk-grid cell in row-major order and one empty
subscriber set per chunk. -/
theorem C8_generate_empty (width height chunk_size : Nat) (_hcs : 0 < chunk_size) :
    (width % chunk_size ≠ 0 ∨ height % chunk_size ≠ 0 →
      World.generate_empty width height chunk_size = .error .MismatchedChunkSize) ∧
    (width % chunk_size = 0 → height % chunk_size = 0 →
      ∃ w0, World.generate_empty width height chunk_size = .ok w0 ∧
        w0.width = width ∧ w0.height = height ∧ w0.chunk_size = chunk_size ∧
        w0.width_chunks = width / chunk_size ∧ w0.height_chunks = height / chunk_size ∧
        w0.chunks.length = (width / chunk_size) * (height / chunk_size) ∧
        (∀ i : Nat, i < (width / chunk_size) * (height / chunk_size) →
          w0.chunks[i]? =
            some (Chunk.empty chunk_size (i % (width / chunk_size)) (i / (width / chunk_size)))) ∧
        (∀ c ∈ w0.chunks, ∀ b ∈ c.blocks, b = Block.Air) ∧
        (∀ l ∈ w0.player_loaded, l = [])) := by
  constructor
  · intro h
    simp only [World.generate_empty, if_pos h]
  · intro h1 h2
    refine ⟨{ width := width, height := height, chunk_size := chunk_size,
              chunks := (List.range ((width / chunk_size) * (height / chunk_size))).map
                (fun idx => Chunk.empty chunk_size (idx % (width / chunk_size))
                  (idx / (width / chunk_size))),
              width_chunks := width / chunk_size, height_chunks := height / chunk_size,
              players := [],
              player_loaded := (List.range ((width / chunk_size) * (height / chunk_size))).map
                (fun _ => []) },
            ?_, rfl, rfl, rfl, rfl, rfl, by simp, ?_, ?_, ?_⟩
    · simp only [World.generate_empty]
      rw [if_neg (by simp [h1, h2])]
    · intro i hi
      simp [List.getElem?_map, List.getElem?_range hi]
    · intro c hc b hb
      simp only [List.mem_map] at hc
      obtain ⟨idx, _, rfl⟩ := hc
      simp only [Chunk.empty, List.mem_map] at hb
      obtain ⟨t, _, rfl⟩ := hb
      rfl
    · intro l hl
      simp only [List.mem_map] at hl
      obtain ⟨t, _, rfl⟩ := hl
      rfl

/-- Witness for C8 at the concrete inputs (4, 5, 2) and (4, 4, 2). -/
theorem C8_generate_empty_witness :
    World.generate_empty 4 5 2 = .error .MismatchedChunkSize ∧
    ∃ w0, World.generate_empty 4 4 2 = .ok w0 := by
  constructor
  · exact (C8_generate_empty 4 5 2 (by decide)).1 (by decide)
  · obtain ⟨w0, hw0, -⟩ := (C8_generate_empty 4 4 2 (by decide)).2 rfl rfl
    exact ⟨w0, hw0⟩

lemma addMulLt {q r Q R : Nat} (hq : q < Q) (hr : r < R) : q * R + r < Q * R := by
  calc q * R + r < q * R + R := by omega
    _ = (q + 1) * R := by ring
    _ ≤ Q * R := Nat.mul_le_mul_right R hq

lemma addMul_inj {d q r q' r' : Nat} (hr : r < d) (hr' : r' < d)
    (h : q * d + r = q' * d + r') : q = q' ∧ r = r' := by
  have hd : 0 < d := by omega
  have h1 : (q * d + r) / d = q := by
    rw [mul_comm, Nat.mul_add_div hd, Nat.div_eq_of_lt hr, Nat.add_zero]
  have h2 : (q' * d + r') / d = q' := by
    rw [mul_comm, Nat.mul_add_div hd, Nat.div_eq_of_lt hr', Nat.add_zero]
  have hq : q = q' := by rw [← h1, ← h2, h]
  subst hq
  exact ⟨rfl, Nat.add_left_cancel h⟩

lemma generateEmpty_spec (width height chunk_size : Nat) (hcs : 0 < chunk_size)
    (h1 : width % chunk_size = 0) (h2 : height % chunk_size = 0) :
    ∃ w0, World.generate_empty width height chunk_size = .ok w0 ∧ WF w0 ∧
      w0.width = width ∧ w0.height = height ∧ w0.chunk_size = chunk_size ∧
      w0.width_chunks = width / chunk_size ∧ w0.height_chunks = height / chunk_size ∧
      w0.players = [] ∧ (∀ l ∈ w0.player_loaded, l = []) ∧
      w0.chunks.length = (width / chunk_size) * (height / chunk_size) ∧
      (∀ i : Nat, i < (width / chunk_size) * (height / chunk_size) →
        w0.chunks[i]? =
          some (Chunk.empty chunk_size (i % (width / chunk_size)) (i / (width / chunk_size)))) ∧
      (∀ x y, x < width → y < height → blockAt w0 x y = some Block.Air) := by
  have hgetc : ∀ i : Nat, i < (width / chunk_size) * (height / chunk_size) →
      ((List.range ((width / chunk_size) * (height / chunk_size))).map
        (fun idx => Chunk.empty chunk_size (idx % (width / chunk_size))
          (idx / (width / chunk_size))))[i]? =
        some (Chunk.empty chunk_size (i % (width / chunk_size)) (i / (width / chunk_size))) := by
    intro i hi
    simp [List.getElem?_map, List.getElem?_range hi]
  refine ⟨{ width := width, height := height, chunk_size := chunk_size,
            chunks := (List.range ((width / chunk_size) * (height / chunk_size))).map
              (fun idx => Chunk.empty chunk_size (idx % (width / chunk_size))
                (idx / (width / chunk_size))),
            width_chunks := width / chunk_size, height_chunks := height / chunk_size,
            players := [],
            player_loaded := (List.range ((width / chunk_size) * (height / chunk_size))).map
              (fun _ => []) },
          ?_, ?_, rfl, rfl, rfl, rfl, rfl, rfl, ?_, by simp, hgetc, ?_⟩
  · simp only [World.generate_empty]
    rw [if_neg (by simp [h1, h2])]
  · refine ⟨hcs, rfl, rfl, h1, h2, by simp, ?_, ?_⟩
    · intro i c hc
      rcases List.getElem?_eq_some.mp hc with ⟨hi, -⟩
      simp only [List.length_map, List.length_range] at hi
      rw [hgetc i hi] at hc
      injection hc with hc
      rw [← hc]
      rfl
    · intro i c hc
      rcases List.getElem?_eq_some.mp hc with ⟨hi, -⟩
      simp only [List.length_map, List.length_range] at hi
      rw [hgetc i hi] at hc
      injection hc with hc
      rw [← hc]
      simp [Chunk.empty]
  · intro l hl
    simp only [List.mem_map] at hl
    obtain ⟨t, _, rfl⟩ := hl
    rfl
  · intro x y hx hy
    have hdvw : chunk_size ∣ width := Nat.dvd_of_mod_eq_zero h1
    have hdvh : chunk_size ∣ height := Nat.dvd_of_mod_eq_zero h2
    have hcx : x / chunk_size < width / chunk_size := Nat.div_lt_div_of_lt_of_dvd hdvw hx
    have hcy : y / chunk_size < height / chunk_size := Nat.div_lt_div_of_lt_of_dvd hdvh hy
    have hi : (y / chunk_size) * (width / chunk_size) + x / chunk_size <
        (width / chunk_size) * (height / chunk_size) := by
      calc (y / chunk_size) * (width / chunk_size) + x / chunk_size
          < (height / chunk_size) * (width / chunk_size) := addMulLt hcy hcx
        _ = (width / chunk_size) * (height / chunk_size) := mul_comm ..
    have hbidx : (y % chunk_size) * chunk_size + x % chunk_size < chunk_size ^ 2 := by
      rw [pow_two]
      exact addMulLt (Nat.mod_lt _ hcs) (Nat.mod_lt _ hcs)
    unfold blockAt
    rw [hgetc _ hi]
    simp [Chunk.empty, List.getElem?_map, List.getElem?_range, List.getElem?_replicate, hbidx]

lemma getElem?_set_lt {α : Type} (l : List α) (i : Nat) (a : α) (h : i < l.length) :
    (l.set i a)[i]? = some a := by
  simp [List.getElem?_set_self, h]

lemma set_block_ok (w : World) (hw : WF w) (hsq : w.height_chunks = w.width_chunks)
    (x y : Nat) (hx : x < w.width) (hy : y < w.height) (b : Block) :
    ∃ w', w.set_block x y b = (w', .ok ()) ∧ WF w' ∧
      w'.width = w.width ∧ w'.height = w.height ∧ w'.chunk_size = w.chunk_size ∧
      w'.width_chunks = w.width_chunks ∧ w'.height_chunks = w.height_chunks ∧
      w'.players = w.players ∧ w'.player_loaded = w.player_loaded ∧
      w'.chunks.length = w.chunks.length ∧
      (∀ i : Nat, (w'.chunks[i]?).map chunkShape = (w.chunks[i]?).map chunkShape) ∧
      (∀ x' y', x' < w.width → y' < w.height →
        blockAt w' x' y' = updateAt (blockAt w) x y b x' y') := by
  obtain ⟨hcs, hwc, hhc, hdw, hdh, hlen, hsize, hblen⟩ := hw
  have hdvw : w.chunk_size ∣ w.width := Nat.dvd_of_mod_eq_zero hdw
  have hdvh : w.chunk_size ∣ w.height := Nat.dvd_of_mod_eq_zero hdh
  have hcx : x / w.chunk_size < w.width / w.chunk_size := Nat.div_lt_div_of_lt_of_dvd hdvw hx
  have hcy : y / w.chunk_size < w.height / w.chunk_size := Nat.div_lt_div_of_lt_of_dvd hdvh hy
  have hcx' : x / w.chunk_size < w.width_chunks := by rw [hwc]; exact hcx
  have hcy' : y / w.chunk_size < w.height_chunks := by rw [hhc]; exact hcy
  have hilt : (y / w.chunk_size) * w.width_chunks + x / w.chunk_size < w.chunks.length := by
    rw [hlen, mul_comm w.width_chunks w.height_chunks]
    exact addMulLt hcy' hcx'
  obtain ⟨c, hc⟩ : ∃ c, w.chunks[((y / w.chunk_size) * w.width_chunks + x / w.chunk_size)]? = some c :=
    ⟨_, List.getElem?_eq_getElem hilt⟩
  have hcsize : c.size = w.chunk_size := hsize _ _ hc
  have hcblen : c.blocks.length = w.chunk_size ^ 2 := hblen _ _ hc
  have hbx : x % w.chunk_size < w.chunk_size := Nat.mod_lt _ hcs
  have hby : y % w.chunk_size < w.chunk_size := Nat.mod_lt _ hcs
  have hblt : (y % w.chunk_size) * w.chunk_size + x % w.chunk_size < c.blocks.length := by
    rw [hcblen, pow_two]
    exact addMulLt hby hbx
  have e1 : w.check_out_of_bounds_block x y = .ok () := by
    unfold World.check_out_of_bounds_block
    rw [if_neg (by omega)]
  have e2 : w.get_chunk_block_is_in x y = .ok (x / w.chunk_size, y / w.chunk_size) := by
    unfold World.get_chunk_block_is_in
    rw [e1]
  have e3 : w.check_out_of_bounds_chunk (x / w.chunk_size) (y / w.chunk_size) = .ok () := by
    unfold World.check_out_of_bounds_chunk
    rw [if_neg (by push_neg; omega)]
  have e4 : x - x / w.chunk_size * w.chunk_size = x % w.chunk_size := by
    have := Nat.div_add_mod' x w.chunk_size
    omega
  have e5 : y - y / w.chunk_size * w.chunk_size = y % w.chunk_size := by
    have := Nat.div_add_mod' y w.chunk_size
    omega
  have e6 : c.set_block (x % w.chunk_size) (y % w.chunk_size) b
      = .ok { c with blocks :=
          c.blocks.set ((y % w.chunk_size) * w.chunk_size + x % w.chunk_size) b } := by
    unfold Chunk.set_block
    rw [hcsize, if_pos hblt]
  have hieq : (y / w.chunk_size) * w.height_chunks + x / w.chunk_size
      = (y / w.chunk_size) * w.width_chunks + x / w.chunk_size := by rw [hsq]
  refine ⟨{ w with chunks := w.chunks.set ((y / w.chunk_size) * w.width_chunks + x / w.chunk_size) ({ c with blocks := c.blocks.set ((y % w.chunk_size) * w.chunk_size + x % w.chunk_size) b }) }, ?_, ?_, rfl, rfl, rfl, rfl, rfl, rfl, rfl, by simp, ?_, ?_⟩
  · simp only [World.set_block, e1, e2, e3, e4, e5, hieq, hc, e6]
  · refine ⟨hcs, hwc, hhc, hdw, hdh, by simp [hlen], ?_, ?_⟩
    · intro i ci hci
      by_cases hii : i = (y / w.chunk_size) * w.width_chunks + x / w.chunk_size
      · subst hii
        rw [List.getElem?_set_self' ..] at hci
        rw [hc] at hci
        simp only [Option.map_some] at hci
        injection hci with hci
        rw [← hci]
        exact hcsize
      · rw [List.getElem?_set_ne (fun h => hii h.symm)] at hci
        exact hsize _ _ hci
    · intro i ci hci
      by_cases hii : i = (y / w.chunk_size) * w.width_chunks + x / w.chunk_size
      · subst hii
        rw [List.getElem?_set_self' ..] at hci
        rw [hc] at hci
        simp only [Option.map_some] at hci
        injection hci with hci
        rw [← hci]
        simp [List.length_set, hcblen]
      · rw [List.getElem?_set_ne (fun h => hii h.symm)] at hci
        exact hblen _ _ hci
  · intro i
    by_cases hii : i = (y / w.chunk_size) * w.width_chunks + x / w.chunk_size
    · subst hii
      rw [List.getElem?_set_self' .., hc]
      rfl
    · rw [List.getElem?_set_ne (fun h => hii h.symm)]
  · intro x' y' hx' hy'
    have hcx2 : x' / w.chunk_size < w.width_chunks := by
      rw [hwc]; exact Nat.div_lt_div_of_lt_of_dvd hdvw hx'
    have hcy2 : y' / w.chunk_size < w.height_chunks := by
      rw [hhc]; exact Nat.div_lt_div_of_lt_of_dvd hdvh hy'
    have hbx2 : x' % w.chunk_size < w.chunk_size := Nat.mod_lt _ hcs
    have hby2 : y' % w.chunk_size < w.chunk_size := Nat.mod_lt _ hcs
    unfold blockAt updateAt
    dsimp only
    by_cases hsame : y' / w.chunk_size * w.width_chunks + x' / w.chunk_size
        = y / w.chunk_size * w.width_chunks + x / w.chunk_size
    · obtain ⟨hdy, hdx⟩ := addMul_inj hcx2 hcx' hsame
      rw [hsame, getElem?_set_lt _ _ _ hilt, hc]
      dsimp only
      by_cases hpt : x' = x ∧ y' = y
      · obtain ⟨rfl, rfl⟩ := hpt
        rw [if_pos (⟨rfl, rfl⟩ : x' = x' ∧ y' = y')]
        exact getElem?_set_lt _ _ _ hblt
      · rw [if_neg hpt]
        have hii : y' % w.chunk_size * w.chunk_size + x' % w.chunk_size
            ≠ y % w.chunk_size * w.chunk_size + x % w.chunk_size := by
          intro he
          obtain ⟨hmy, hmx⟩ := addMul_inj hbx2 hbx he
          apply hpt
          have d1 := Nat.div_add_mod' x' w.chunk_size
          have d2 := Nat.div_add_mod' x w.chunk_size
          have d3 := Nat.div_add_mod' y' w.chunk_size
          have d4 := Nat.div_add_mod' y w.chunk_size
          rw [hdx, hmx] at d1
          rw [hdy, hmy] at d3
          omega
        exact List.getElem?_set_ne (Ne.symm hii)
    · rw [List.getElem?_set_ne (fun h => hsame h.symm)]
      have hpt : ¬(x' = x ∧ y' = y) := by
        rintro ⟨rfl, rfl⟩
        exact hsame rfl
      rw [if_neg hpt]

lemma applyW_append (l1 l2 : List (Nat × Nat × Block)) :
    ∀ f, applyW f (l1 ++ l2) = applyW (applyW f l1) l2 := by
  induction l1 with
  | nil => intro f; rfl
  | cons p rest ih =>
    intro f
    obtain ⟨a, b2, v⟩ := p
    simp only [List.cons_append, applyW]
    exact ih _

lemma applyW_congr (W H : Nat) (l : List (Nat × Nat × Block)) :
    ∀ (f g : Nat → Nat → Option Block),
      (∀ x y, x < W → y < H → f x y = g x y) →
      ∀ x y, x < W → y < H → applyW f l x y = applyW g l x y := by
  induction l with
  | nil => intro f g hfg x y hx hy; exact hfg x y hx hy
  | cons p rest ih =>
    intro f g hfg x y hx hy
    obtain ⟨a, b2, v⟩ := p
    simp only [applyW]
    refine ih _ _ ?_ x y hx hy
    intro x2 y2 hx2 hy2
    unfold updateAt
    by_cases hcone : x2 = a ∧ y2 = b2
    · rw [if_pos hcone, if_pos hcone]
    · rw [if_neg hcone, if_neg hcone]
      exact hfg x2 y2 hx2 hy2

lemma applyW_grid (Wd : Nat) (hW : 0 < Wd) (b : Block) :
    ∀ (n : Nat) (f : Nat → Nat → Option Block) (x y : Nat),
      applyW f ((List.range n).map (fun i => (i % Wd, i / Wd, b))) x y
        = if x < Wd ∧ y * Wd + x < n then some b else f x y := by
  intro n
  induction n with
  | zero => intro f x y; simp [applyW]
  | succ n ih =>
    intro f x y
    rw [List.range_succ, List.map_append, applyW_append]
    simp only [List.map_cons, List.map_nil, applyW, updateAt]
    rw [ih]
    have hnd := Nat.div_add_mod' n Wd
    have hmod : n % Wd < Wd := Nat.mod_lt _ hW
    by_cases hxy : x = n % Wd ∧ y = n / Wd
    · obtain ⟨rfl, rfl⟩ := hxy
      rw [if_pos ⟨rfl, rfl⟩, if_pos ⟨hmod, by omega⟩]
    · rw [if_neg hxy]
      have hiff : (x < Wd ∧ y * Wd + x < n + 1) ↔ (x < Wd ∧ y * Wd + x < n) := by
        constructor
        · rintro ⟨h1, h2⟩
          refine ⟨h1, ?_⟩
          rcases Nat.lt_or_ge (y * Wd + x) n with h3 | h3
          · exact h3
          · exfalso
            apply hxy
            have heq : y * Wd + x = n / Wd * Wd + n % Wd := by omega
            obtain ⟨hy2, hx2⟩ := addMul_inj h1 hmod heq
            exact ⟨hx2, hy2⟩
        · rintro ⟨h1, h2⟩
          exact ⟨h1, by omega⟩
      rw [if_congr hiff rfl rfl]

lemma applyW_row (g : Nat) (b : Block) :
    ∀ (n : Nat) (f : Nat → Nat → Option Block) (x y : Nat),
      applyW f ((List.range n).map (fun t => (t, g, b))) x y
        = if x < n ∧ y = g then some b else f x y := by
  intro n
  induction n with
  | zero => intro f x y; simp [applyW]
  | succ n ih =>
    intro f x y
    rw [List.range_succ, List.map_append, applyW_append]
    simp only [List.map_cons, List.map_nil, applyW, updateAt]
    rw [ih]
    by_cases hxy : x = n ∧ y = g
    · obtain ⟨rfl, rfl⟩ := hxy
      rw [if_pos ⟨rfl, rfl⟩, if_pos ⟨by omega, rfl⟩]
    · rw [if_neg hxy]
      have hiff : (x < n + 1 ∧ y = g) ↔ (x < n ∧ y = g) := by
        constructor
        · rintro ⟨h1, h2⟩
          refine ⟨?_, h2⟩
          rcases Nat.lt_or_ge x n with h3 | h3
          · exact h3
          · exfalso
            exact hxy ⟨by omega, h2⟩
        · rintro ⟨h1, h2⟩
          exact ⟨by omega, h2⟩
      rw [if_congr hiff rfl rfl]

lemma runSets_spec (l : List (Nat × Nat × Block)) :
    ∀ (w : World), WF w → w.height_chunks = w.width_chunks →
      (∀ p ∈ l, p.1 < w.width ∧ p.2.1 < w.height) →
      ∃ w', runSets w l = (w', .ok ()) ∧ WF w' ∧
        w'.width = w.width ∧ w'.height = w.height ∧ w'.chunk_size = w.chunk_size ∧
        w'.width_chunks = w.width_chunks ∧ w'.height_chunks = w.height_chunks ∧
        w'.players = w.players ∧ w'.player_loaded = w.player_loaded ∧
        w'.chunks.length = w.chunks.length ∧
        (∀ i : Nat, (w'.chunks[i]?).map chunkShape = (w.chunks[i]?).map chunkShape) ∧
        (∀ x y, x < w.width → y < w.height → blockAt w' x y = applyW (blockAt w) l x y) := by
  induction l with
  | nil =>
    intro w hw hsq hb
    exact ⟨w, rfl, hw, rfl, rfl, rfl, rfl, rfl, rfl, rfl, rfl, fun i => rfl,
      fun x y hx hy => rfl⟩
  | cons p rest ih =>
    intro w hw hsq hb
    obtain ⟨a, b2, v⟩ := p
    obtain ⟨ha, hb2⟩ := hb (a, b2, v) (List.mem_cons_self _ _)
    obtain ⟨w1, he, hw1, hW, hH, hCS, hWC, hHC, hP, hPL, hL, hSh, hBl⟩ :=
      set_block_ok w hw hsq a b2 ha hb2 v
    obtain ⟨w2, he2, hw2, hW2, hH2, hCS2, hWC2, hHC2, hP2, hPL2, hL2, hSh2, hBl2⟩ :=
      ih w1 hw1 (by rw [hHC, hWC]; exact hsq)
        (by intro q hq
            have := hb q (List.mem_cons_of_mem _ hq)
            rw [hW, hH]
            exact this)
    refine ⟨w2, ?_, hw2, by rw [hW2, hW], by rw [hH2, hH], by rw [hCS2, hCS],
      by rw [hWC2, hWC], by rw [hHC2, hHC], by rw [hP2, hP], by rw [hPL2, hPL],
      by rw [hL2, hL], ?_, ?_⟩
    · simp only [runSets, he]
      exact he2
    · intro i
      rw [hSh2 i, hSh i]
    · intro x y hx hy
      have hx1 : x < w1.width := by rw [hW]; exact hx
      have hy1 : y < w1.height := by rw [hH]; exact hy
      rw [hBl2 x y hx1 hy1]
      show applyW (blockAt w1) rest x y = applyW (blockAt w) ((a, b2, v) :: rest) x y
      have : applyW (blockAt w) ((a, b2, v) :: rest) x y
          = applyW (updateAt (blockAt w) a b2 v) rest x y := rfl
      rw [this]
      refine applyW_congr w.width w.height rest (blockAt w1)
        (updateAt (blockAt w) a b2 v) ?_ x y hx hy
      intro x2 y2 hx2 hy2
      exact hBl x2 y2 hx2 hy2

/-- C4 (amended): for valid dimensions with a square chunk grid
(`width / chunk_size = height / chunk_size`, keeping the buggy
`height_chunks` row index and the `&&` cell bounds check out of play) and
`grass_level < height`, `generate_flat` succeeds and returns the
`generate_empty` world in which every cell with `y + 1 < grass_level` holds
Stone, the entire row `y = grass_level` holds Grass, and all other cells
hold Air; when `grass_level = 0` the stone fill is skipped but the grass
row is still placed; every write goes through `set_block` (the model's
`runSets` is a fold of `set_block` calls). -/
theorem C4_generate_flat_amended (width height chunk_size grass_level : Nat)
    (hcs : 0 < chunk_size) (hWpos : 0 < width)
    (hdw : width % chunk_size = 0) (hdh : height % chunk_size = 0)
    (hsq : width / chunk_size = height / chunk_size) (hg : grass_level < height) :
    ∃ wf, World.generate_flat width height chunk_size grass_level = .ok wf ∧
      wf.width = width ∧ wf.height = height ∧ wf.chunk_size = chunk_size ∧
      wf.players = [] ∧ (∀ l ∈ wf.player_loaded, l = []) ∧
      wf.chunks.length = (width / chunk_size) * (height / chunk_size) ∧
      (∀ (i : Nat) (c : Chunk), wf.chunks[i]? = some c →
        c.size = chunk_size ∧ c.chunk_x = i % (width / chunk_size) ∧
        c.chunk_y = i / (width / chunk_size)) ∧
      (∀ x y, x < width → y < height → blockAt wf x y = some (flatSpec grass_level y)) := by
  obtain ⟨w0, hge, hwf0, hW0, hH0, hCS0, hWC0, hHC0, hP0, hPL0, hL0, hGet0, hAir0⟩ :=
    generateEmpty_spec width height chunk_size hcs hdw hdh
  have hsq0 : w0.height_chunks = w0.width_chunks := by rw [hHC0, hWC0, hsq]
  rcases Nat.eq_zero_or_pos grass_level with hg0 | hgpos
  · -- grass_level = 0: the stone pass is skipped
    subst hg0
    obtain ⟨w2, hrun2, hwf2, hW2, hH2, hCS2, hWC2, hHC2, hP2, hPL2, hL2, hSh2, hBl2⟩ :=
      runSets_spec ((List.range width).map (fun t => (t, 0, Block.Grass))) w0 hwf0 hsq0
        (by
          intro q hq
          simp only [List.mem_map, List.mem_range] at hq
          obtain ⟨t, ht, rfl⟩ := hq
          rw [hW0, hH0]
          exact ⟨ht, hg⟩)
    refine ⟨w2, ?_, by rw [hW2, hW0], by rw [hH2, hH0], by rw [hCS2, hCS0],
      by rw [hP2, hP0], ?_, by rw [hL2, hL0], ?_, ?_⟩
    · unfold World.generate_flat
      rw [hge]
      dsimp only
      rw [if_neg (by omega)]
      dsimp only
      rw [hrun2]
    · intro l hl
      rw [hPL2] at hl
      exact hPL0 l hl
    · intro i c hc2
      have hmap := hSh2 i
      rw [hc2] at hmap
      cases how : w0.chunks[i]? with
      | none => rw [how] at hmap; simp at hmap
      | some c0 =>
        have hilen : i < w0.chunks.length := (List.getElem?_eq_some.mp how).1
        rw [hL0] at hilen
        rw [hGet0 i hilen] at hmap
        simp only [Option.map_some'] at hmap
        injection hmap with hmap
        have h1 : c.size = chunk_size := by
          have := congrArg Prod.fst hmap
          simpa [chunkShape, Chunk.empty] using this
        have h2 : c.chunk_x = i % (width / chunk_size) := by
          have := congrArg (fun p => p.2.1) hmap
          simpa [chunkShape, Chunk.empty] using this
        have h3 : c.chunk_y = i / (width / chunk_size) := by
          have := congrArg (fun p => p.2.2) hmap
          simpa [chunkShape, Chunk.empty] using this
        exact ⟨h1, h2, h3⟩
    · intro x y hx hy
      have hx0 : x < w0.width := by rw [hW0]; exact hx
      have hy0 : y < w0.height := by rw [hH0]; exact hy
      rw [hBl2 x y hx0 hy0, applyW_row 0 Block.Grass width (blockAt w0) x y]
      unfold flatSpec
      by_cases hyg : y = 0
      · rw [if_pos ⟨hx, hyg⟩, if_pos hyg]
      · rw [if_neg (fun hcon => hyg hcon.2), if_neg hyg, if_neg (by omega)]
        exact hAir0 x y hx hy
  · -- grass_level ≥ 1: stone pass fills rows below grass_level - 1
    obtain ⟨w1, hrun1, hwf1, hW1, hH1, hCS1, hWC1, hHC1, hP1, hPL1, hL1, hSh1, hBl1⟩ :=
      runSets_spec ((List.range (width * (grass_level - 1))).map
          (fun idx => (idx % width, idx / width, Block.Stone))) w0 hwf0 hsq0
        (by
          intro q hq
          simp only [List.mem_map, List.mem_range] at hq
          obtain ⟨idx, hidx, rfl⟩ := hq
          rw [hW0, hH0]
          refine ⟨Nat.mod_lt _ hWpos, ?_⟩
          show idx / width < height
          have : idx / width < grass_level - 1 := by
            rw [Nat.div_lt_iff_lt_mul hWpos]
            rw [mul_comm width] at hidx
            exact hidx
          omega)
    obtain ⟨w2, hrun2, hwf2, hW2, hH2, hCS2, hWC2, hHC2, hP2, hPL2, hL2, hSh2, hBl2⟩ :=
      runSets_spec ((List.range width).map (fun t => (t, grass_level, Block.Grass))) w1 hwf1
        (by rw [hHC1, hWC1]; exact hsq0)
        (by
          intro q hq
          simp only [List.mem_map, List.mem_range] at hq
          obtain ⟨t, ht, rfl⟩ := hq
          rw [hW1, hH1, hW0, hH0]
          exact ⟨ht, hg⟩)
    have hstone : ∀ x y, x < width → y < height →
        blockAt w1 x y = if x < width ∧ y * width + x < width * (grass_level - 1)
          then some Block.Stone else some Block.Air := by
      intro x y hx hy
      have hx0 : x < w0.width := by rw [hW0]; exact hx
      have hy0 : y < w0.height := by rw [hH0]; exact hy
      rw [hBl1 x y hx0 hy0, applyW_grid width hWpos Block.Stone (width * (grass_level - 1))
        (blockAt w0) x y]
      by_cases hcon : x < width ∧ y * width + x < width * (grass_level - 1)
      · rw [if_pos hcon, if_pos hcon]
      · rw [if_neg hcon, if_neg hcon]
        exact hAir0 x y hx hy
    refine ⟨w2, ?_, by rw [hW2, hW1, hW0], by rw [hH2, hH1, hH0],
      by rw [hCS2, hCS1, hCS0], by rw [hP2, hP1, hP0], ?_, by rw [hL2, hL1, hL0], ?_, ?_⟩
    · unfold World.generate_flat
      rw [hge]
      dsimp only
      rw [if_pos (by omega : grass_level ≠ 0)]
      rw [hrun1]
      dsimp only
      rw [hrun2]
    · intro l hl
      rw [hPL2, hPL1] at hl
      exact hPL0 l hl
    · intro i c hc2
      have hmap1 := hSh1 i
      have hmap2 := hSh2 i
      rw [hc2] at hmap2
      rw [hmap1] at hmap2
      cases how : w0.chunks[i]? with
      | none => rw [how] at hmap2; simp at hmap2
      | some c0 =>
        have hilen : i < w0.chunks.length := (List.getElem?_eq_some.mp how).1
        rw [hL0] at hilen
        rw [hGet0 i hilen] at hmap2
        simp only [Option.map_some'] at hmap2
        injection hmap2 with hmap2
        have h1 : c.size = chunk_size := by
          have := congrArg Prod.fst hmap2
          simpa [chunkShape, Chunk.empty] using this
        have h2 : c.chunk_x = i % (width / chunk_size) := by
          have := congrArg (fun p => p.2.1) hmap2
          simpa [chunkShape, Chunk.empty] using this
        have h3 : c.chunk_y = i / (width / chunk_size) := by
          have := congrArg (fun p => p.2.2) hmap2
          simpa [chunkShape, Chunk.empty] using this
        exact ⟨h1, h2, h3⟩
    · intro x y hx hy
      have hx1 : x < w1.width := by rw [hW1, hW0]; exact hx
      have hy1 : y < w1.height := by rw [hH1, hH0]; exact hy
      rw [hBl2 x y hx1 hy1, applyW_row grass_level Block.Grass width (blockAt w1) x y]
      unfold flatSpec
      by_cases hyg : y = grass_level
      · rw [if_pos ⟨hx, hyg⟩, if_pos hyg]
      · rw [if_neg (fun hcon => hyg hcon.2), if_neg hyg, hstone x y hx hy]
        by_cases hyy : y + 1 < grass_level
        · have e1 : y * width + x < (y + 1) * width := by
            rw [add_mul, one_mul]
            omega
          have e2 : (y + 1) * width ≤ (grass_level - 1) * width :=
            Nat.mul_le_mul_right _ (by omega)
          have e3 : y * width + x < width * (grass_level - 1) := by
            rw [mul_comm width]
            omega
          rw [if_pos ⟨hx, e3⟩, if_pos hyy]
        · have e2 : (grass_level - 1) * width ≤ y * width :=
            Nat.mul_le_mul_right _ (by omega)
          have e3 : ¬(y * width + x < width * (grass_level - 1)) := by
            rw [mul_comm width]
            omega
          rw [if_neg (fun hcon => e3 hcon.2), if_neg hyy]

/-- Witness for C4 at the concrete input (4, 4, 2, 2). -/
theorem C4_generate_flat_amended_witness :
    ∃ wf, World.generate_flat 4 4 2 2 = .ok wf ∧ blockAt wf 0 2 = some (flatSpec 2 2) := by
  obtain ⟨wf, h1, -, -, -, -, -, -, -, h9⟩ :=
    C4_generate_flat_amended 4 4 2 2 (by decide) (by decide) (by decide) (by decide) rfl
      (by decide)
  exact ⟨wf, h1, h9 0 2 (by decide) (by decide)⟩
